import Mathlib

/-!
# Online code editor: the preview, sharing and persistence pipeline of `src/src/App.jsx`

A shallow embedding of the state logic of the `App` component:

* `getInitialCode` (share-token decoding and the storage fallback),
* the debounced renderer (the `useEffect` over `[html, css, js]`),
* the one-shot operations (`generateShareLink`, `copyAllCode`, `loadGist`,
  `loadSnippetById`, the template selector, the reset and theme buttons).

JavaScript strings are modelled by Lean strings (sequences of Unicode scalar
values).  The browser and library services the component calls are modelled as
follows: `localStorage` is a map from keys to strings, the timer table
of `setTimeout`/`clearTimeout` is a list of pending timers, `JSON.stringify`
and `JSON.parse` are embedded from their ECMAScript definitions, and the
`lz-string` codec is a parameter.
-/

namespace OnlineCodeEditor

/-! ## JavaScript values -/

/-- The JavaScript values that occur in the component: what `JSON.parse`
produces, plus `undefined` (the result of reading a missing property).
A number keeps the text of its literal. -/
inductive JSValue where
  | undefined : JSValue
  | null : JSValue
  | bool (b : Bool) : JSValue
  | number (literal : String) : JSValue
  | string (s : String) : JSValue
  | array (items : List JSValue) : JSValue
  | object (members : List (String × JSValue)) : JSValue

/-- The last value bound to `key` in a member list: a later duplicate key of a
JSON text overwrites an earlier one. -/
def lookupMember (key : String) : List (String × JSValue) → Option JSValue
  | [] => none
  | (k, v) :: rest =>
    match lookupMember key rest with
    | some w => some w
    | none => if k = key then some v else none

/-- A thrown `TypeError`. -/
inductive TypeError where
  | cannotReadProperty : TypeError
deriving DecidableEq

/-- Property read `value.key` for the keys `html`, `css`, `js`: reading from
`null` or `undefined` throws, an object gives its member or `undefined`, every
other value has no such property. -/
def JSValue.getProp (value : JSValue) (key : String) : Except TypeError JSValue :=
  match value with
  | .undefined => .error .cannotReadProperty
  | .null => .error .cannotReadProperty
  | .object members => .ok ((lookupMember key members).getD .undefined)
  | _ => .ok .undefined

/-! ## JSON text -/

namespace JSON

/-- Lower-case hexadecimal digit of a number below 16. -/
def hexDigit (n : Nat) : Char :=
  if n < 10 then Char.ofNat (48 + n) else Char.ofNat (87 + n)

/-- The escape `\uXXXX` of a code unit (`UnicodeEscape` of ECMA-262). -/
def unicodeEscape (n : Nat) : List Char :=
  ['\\', 'u', hexDigit (n / 4096 % 16), hexDigit (n / 256 % 16),
    hexDigit (n / 16 % 16), hexDigit (n % 16)]

/-- One character of `QuoteJSONString`. -/
def quoteChar (c : Char) : List Char :=
  if c = '\x08' then ['\\', 'b']
  else if c = '\t' then ['\\', 't']
  else if c = '\n' then ['\\', 'n']
  else if c = '\x0c' then ['\\', 'f']
  else if c = '\r' then ['\\', 'r']
  else if c = '"' then ['\\', '"']
  else if c = '\\' then ['\\', '\\']
  else if c.toNat < 0x20 then unicodeEscape c.toNat
  else [c]

/-- The characters `QuoteJSONString` puts between the two quotes. -/
def quoteBody : List Char → List Char
  | [] => []
  | c :: cs => quoteChar c ++ quoteBody cs

/-- `QuoteJSONString` of ECMA-262. -/
def quoteJSONString (s : String) : List Char :=
  '"' :: (quoteBody s.data ++ ['"'])

/-- `JSON.stringify({ html, css, js })` for three string values: the members
in insertion order, no gap. -/
def stringifyBundle (html css js : String) : String :=
  String.mk ("\x7b\"html\":".data ++ quoteJSONString html ++ ",\"css\":".data
    ++ quoteJSONString css ++ ",\"js\":".data ++ quoteJSONString js ++ ['}'])

/-- Value of a hexadecimal digit, either case. -/
def hexValue (c : Char) : Option Nat :=
  let n := c.toNat
  if 48 ≤ n ∧ n ≤ 57 then some (n - 48)
  else if 97 ≤ n ∧ n ≤ 102 then some (n - 87)
  else if 65 ≤ n ∧ n ≤ 70 then some (n - 55)
  else none

/-- Value of four hexadecimal digits. -/
def hex4 (a b c d : Char) : Option Nat :=
  match hexValue a, hexValue b, hexValue c, hexValue d with
  | some x, some y, some z, some w => some (x * 4096 + y * 256 + z * 16 + w)
  | _, _, _, _ => none

/-- JSON white space: tab, line feed, carriage return, space. -/
def isWs (c : Char) : Bool :=
  c = '\t' || c = '\n' || c = '\r' || c = ' '

/-- Drop leading JSON white space. -/
def skipWs : List Char → List Char
  | [] => []
  | c :: cs => if isWs c then skipWs cs else c :: cs

/-- The character of a single `\uXXXX` escape.  A lone surrogate, which a
JavaScript string keeps as a code unit, is not a Unicode scalar value and is
rendered as U+FFFD here. -/
def escapedChar (n : Nat) : Char :=
  if 0xD800 ≤ n ∧ n ≤ 0xDFFF then Char.ofNat 0xFFFD else Char.ofNat n

/-- The character of a surrogate pair `\uHHHH\uLLLL`, when it is one. -/
def surrogatePair (hi lo : Nat) : Option Char :=
  if 0xD800 ≤ hi ∧ hi ≤ 0xDBFF ∧ 0xDC00 ≤ lo ∧ lo ≤ 0xDFFF then
    some (Char.ofNat (0x10000 + (hi - 0xD800) * 0x400 + (lo - 0xDC00)))
  else none

/-- Emit the replacement for a pending lone high surrogate, if any. -/
def flush (pending : Option Nat) (out : List Char) : List Char :=
  match pending with
  | none => out
  | some _ => Char.ofNat 0xFFFD :: out

/-- The character a two-character escape denotes. -/
def simpleEscape (c : Char) : Option Char :=
  if c = '"' then some '"'
  else if c = '\\' then some '\\'
  else if c = '/' then some '/'
  else if c = 'b' then some '\x08'
  else if c = 'f' then some '\x0c'
  else if c = 'n' then some '\n'
  else if c = 'r' then some '\r'
  else if c = 't' then some '\t'
  else none

/-- The rest of a JSON string after its opening quote: the characters it
denotes and the text after the closing quote.  `none` is a syntax error.
`pending` is the high surrogate of an immediately preceding `\uXXXX` escape
that still waits for its low surrogate. -/
def parseStringBody : Option Nat → List Char → Option (List Char × List Char)
  | _, [] => none
  | p, c :: rest =>
    if c = '"' then some (flush p [], rest)
    else if c = '\\' then
      match rest with
      | [] => none
      | e :: rest1 =>
        if e = 'u' then
          match rest1 with
          | a :: b :: c :: d :: rest2 =>
            match hex4 a b c d with
            | none => none
            | some n =>
              match p.bind fun hi => surrogatePair hi n with
              | some ch => (parseStringBody none rest2).map fun r => (ch :: r.1, r.2)
              | none =>
                if 0xD800 ≤ n ∧ n ≤ 0xDBFF then
                  (parseStringBody (some n) rest2).map fun r => (flush p r.1, r.2)
                else
                  (parseStringBody none rest2).map fun r =>
                    (flush p (escapedChar n :: r.1), r.2)
          | _ => none
        else
          match simpleEscape e with
          | some ch => (parseStringBody none rest1).map fun r => (flush p (ch :: r.1), r.2)
          | none => none
    else if c.toNat < 0x20 then none
    else (parseStringBody none rest).map fun r => (flush p (c :: r.1), r.2)

/-- Decimal digit. -/
def isDigit (c : Char) : Bool :=
  48 ≤ c.toNat && c.toNat ≤ 57

/-- Split off the longest run of decimal digits. -/
def spanDigits : List Char → List Char × List Char
  | [] => ([], [])
  | c :: cs =>
    if isDigit c then ((spanDigits cs).1.cons c, (spanDigits cs).2) else ([], c :: cs)

/-- The integer part of a JSON number: `0`, or a non-zero digit and digits. -/
def parseInt : List Char → Option (List Char × List Char)
  | [] => none
  | c :: cs =>
    if c = '0' then some (['0'], cs)
    else if isDigit c then some (c :: (spanDigits cs).1, (spanDigits cs).2)
    else none

/-- The optional fraction of a JSON number: `.` and at least one digit. -/
def parseFrac : List Char → Option (List Char × List Char)
  | '.' :: cs =>
    match spanDigits cs with
    | ([], _) => none
    | (ds, rest) => some ('.' :: ds, rest)
  | cs => some ([], cs)

/-- The digits of an exponent, at least one. -/
def parseExpDigits (mark : List Char) (cs : List Char) : Option (List Char × List Char) :=
  match spanDigits cs with
  | ([], _) => none
  | (ds, rest) => some (mark ++ ds, rest)

/-- The optional exponent of a JSON number: `e` or `E`, an optional sign and
at least one digit. -/
def parseExp : List Char → Option (List Char × List Char)
  | 'e' :: '+' :: cs => parseExpDigits ['e', '+'] cs
  | 'e' :: '-' :: cs => parseExpDigits ['e', '-'] cs
  | 'e' :: cs => parseExpDigits ['e'] cs
  | 'E' :: '+' :: cs => parseExpDigits ['E', '+'] cs
  | 'E' :: '-' :: cs => parseExpDigits ['E', '-'] cs
  | 'E' :: cs => parseExpDigits ['E'] cs
  | cs => some ([], cs)

/-- An unsigned JSON number: the text of the literal and the rest. -/
def parseUnsigned (cs : List Char) : Option (List Char × List Char) :=
  match parseInt cs with
  | none => none
  | some (i, r1) =>
    match parseFrac r1 with
    | none => none
    | some (f, r2) =>
      match parseExp r2 with
      | none => none
      | some (e, r3) => some (i ++ f ++ e, r3)

/-- A JSON number: the text of the literal and the rest. -/
def parseNumber : List Char → Option (List Char × List Char)
  | '-' :: cs => (parseUnsigned cs).map fun r => ('-' :: r.1, r.2)
  | cs => parseUnsigned cs

/-- Remove `word` from the head of the text, if it is there. -/
def expect : List Char → List Char → Option (List Char)
  | [], cs => some cs
  | _ :: _, [] => none
  | w :: ws, c :: cs => if w = c then expect ws cs else none

mutual

/-- A JSON value at the head of the text (no leading white space): the value
and the rest of the text.  `none` is a syntax error.  The first argument
bounds the number of nested calls. -/
def parseValue : Nat → List Char → Option (JSValue × List Char)
  | 0, _ => none
  | _ + 1, [] => none
  | fuel + 1, c :: rest =>
    if c = '"' then
      (parseStringBody none rest).map fun r => (.string (String.mk r.1), r.2)
    else if c = '{' then
      match skipWs rest with
      | [] => none
      | d :: rest2 =>
        if d = '}' then some (.object [], rest2)
        else (parseMembers fuel (d :: rest2)).map fun r => (.object r.1, r.2)
    else if c = '[' then
      match skipWs rest with
      | [] => none
      | d :: rest2 =>
        if d = ']' then some (.array [], rest2)
        else (parseElements fuel (d :: rest2)).map fun r => (.array r.1, r.2)
    else if c = 'n' then (expect ['u', 'l', 'l'] rest).map fun r => (.null, r)
    else if c = 't' then (expect ['r', 'u', 'e'] rest).map fun r => (.bool true, r)
    else if c = 'f' then (expect ['a', 'l', 's', 'e'] rest).map fun r => (.bool false, r)
    else (parseNumber (c :: rest)).map fun r => (.number (String.mk r.1), r.2)

/-- The elements of a non-empty array up to and including the closing
bracket; the text starts at the first element. -/
def parseElements : Nat → List Char → Option (List JSValue × List Char)
  | 0, _ => none
  | fuel + 1, cs =>
    match parseValue fuel cs with
    | none => none
    | some (v, rest) =>
      match skipWs rest with
      | [] => none
      | d :: rest2 =>
        if d = ',' then
          (parseElements fuel (skipWs rest2)).map fun r => (v :: r.1, r.2)
        else if d = ']' then some ([v], rest2)
        else none

/-- The members of a non-empty object up to and including the closing brace;
the text starts at the first member name. -/
def parseMembers : Nat → List Char → Option (List (String × JSValue) × List Char)
  | 0, _ => none
  | _ + 1, [] => none
  | fuel + 1, c :: rest =>
    if c = '"' then
      match parseStringBody none rest with
      | none => none
      | some (key, rest1) =>
        match skipWs rest1 with
        | [] => none
        | d :: rest2 =>
          if d = ':' then
            match parseValue fuel (skipWs rest2) with
            | none => none
            | some (v, rest3) =>
              match skipWs rest3 with
              | [] => none
              | e :: rest4 =>
                if e = ',' then
                  (parseMembers fuel (skipWs rest4)).map fun r =>
                    ((String.mk key, v) :: r.1, r.2)
                else if e = '}' then some ([(String.mk key, v)], rest4)
                else none
          else none
    else none

end

/-- A thrown `SyntaxError`. -/
inductive SyntaxError where
  | unexpectedToken : SyntaxError
deriving DecidableEq

/-- `JSON.parse(text)` without reviver: one JSON value surrounded by optional
white space, or a `SyntaxError`.  Every nested call of the parser consumes a
character at least every second level, so `2 * length + 2` levels are never
exhausted by a text of that length. -/
def parse (text : String) : Except SyntaxError JSValue :=
  match parseValue (2 * text.length + 2) (skipWs text.data) with
  | none => .error .unexpectedToken
  | some (v, rest) =>
    match skipWs rest with
    | [] => .ok v
    | _ => .error .unexpectedToken

end JSON

/-! ## Browser and library services -/

/-- Outcome of a call of `decompressFromEncodedURIComponent`: a string,
`null`, or a thrown exception. -/
inductive Decompressed where
  | text (s : String) : Decompressed
  | null : Decompressed
  | threw : Decompressed

/-- The two functions the component imports from `lz-string`. -/
structure LZString where
  compressToEncodedURIComponent : String → String
  decompressFromEncodedURIComponent : String → Decompressed

/-- Decompression is a left inverse of compression. -/
def LZString.LeftInverse (lz : LZString) : Prop :=
  ∀ s, lz.decompressFromEncodedURIComponent (lz.compressToEncodedURIComponent s) = .text s

/-- A small codec with the interface of `lz-string`, used where a statement
has to be instantiated: a token is the text behind a one-character mark, and a
token without the mark decompresses to `null`. -/
def markCodec : LZString where
  compressToEncodedURIComponent := fun s => String.mk ('Z' :: s.data)
  decompressFromEncodedURIComponent := fun t =>
    match t.data with
    | 'Z' :: rest => .text (String.mk rest)
    | _ => .null

/-- `localStorage`: each key is absent or bound to a string. -/
def Storage : Type := String → Option String

/-- `localStorage.getItem(key)`; `none` is `null`. -/
def Storage.getItem (ls : Storage) (key : String) : Option String := ls key

/-- `localStorage.setItem(key, value)`. -/
def Storage.setItem (ls : Storage) (key value : String) : Storage :=
  fun k => if k = key then some value else ls k

/-- `localStorage.removeItem(key)`. -/
def Storage.removeItem (ls : Storage) (key : String) : Storage :=
  fun k => if k = key then none else ls k

/-- The storage with no entry. -/
def Storage.empty : Storage := fun _ => none

/-- The expression `value || fallback` for a `value` that is `null` or a
string: `null` and the empty string are falsy. -/
def orElse (value : Option String) (fallback : String) : String :=
  match value with
  | none => fallback
  | some s => if s = "" then fallback else s

/-- `String(value)` of a property that is missing (`undefined`) or a string,
as a template literal computes it. -/
def interpolate (value : Option String) : String :=
  match value with
  | none => "undefined"
  | some s => s

/-! ## The template catalog -/

/-- An entry of `templates`. -/
structure Template where
  html : String
  css : String
  js : String

/-- The constant `templates`. -/
def templates : List (String × Template) :=
  [ ("Hello World",
      { html := "<h1>Hello, World!</h1>"
        css := "h1 \x7b color: green; text-align: center; \x7d"
        js := "console.log('Hello, World!');" }),
    ("Flexbox Layout",
      { html := "<div class=\"container\"><div>Box 1</div><div>Box 2</div></div>"
        css := ".container \x7b display: flex; gap: 10px; \x7d .container div \x7b background: #eee; padding: 10px; \x7d"
        js := "" }),
    ("Live Clock",
      { html := "<h2 id=\"clock\"></h2>"
        css := "h2 \x7b font-family: monospace; font-size: 2rem; color: navy; text-align: center; \x7d"
        js := "\n      setInterval(() => \x7b\n        const now = new Date();\n        document.getElementById(\"clock\").innerText = now.toLocaleTimeString();\n      \x7d, 1000);\n    " }) ]

/-- The lookup `templates[e.target.value]`; the selector offers the names of
the catalog (and the disabled placeholder, whose value is empty). -/
def lookupTemplate (name : String) : List (String × Template) → Option Template
  | [] => none
  | (k, t) :: rest => if k = name then some t else lookupTemplate name rest

/-! ## Initial code -/

/-- The argument of `JSON.parse` converted to a string: `null` becomes the
text `null`. -/
def Decompressed.toText : Decompressed → Option String
  | .text s => some s
  | .null => some "null"
  | .threw => none

/-- The body of the `try` block of `getInitialCode`:
`JSON.parse(decompressFromEncodedURIComponent(compressed))`.  `none` when
either call throws; the exception is caught and logged. -/
def decodeShared (lz : LZString) (compressed : String) : Option JSValue :=
  match (lz.decompressFromEncodedURIComponent compressed).toText with
  | none => none
  | some text =>
    match JSON.parse text with
    | .ok v => some v
    | .error _ => none

/-- The object literal `getInitialCode` returns from storage. -/
def storedCode (ls : Storage) : JSValue :=
  .object
    [ ("html", .string (orElse (ls.getItem "html") "<h1>Hello</h1>")),
      ("css", .string (orElse (ls.getItem "css") "h1 \x7b color: blue; \x7d")),
      ("js", .string (orElse (ls.getItem "js") "console.log('Hello');")) ]

/-- The function `getInitialCode`; `code` is `params.get("code")`, `none`
being `null`. -/
def getInitialCode (lz : LZString) (code : Option String) (ls : Storage) : JSValue :=
  match code with
  | none => storedCode ls
  | some compressed =>
    if compressed = "" then storedCode ls
    else
      match decodeShared lz compressed with
      | some v => v
      | none => storedCode ls

/-- The reads `initialCode.html`, `initialCode.css`, `initialCode.js` with
which `App` initialises its three states. -/
def initialFields (initialCode : JSValue) : Except TypeError (JSValue × JSValue × JSValue) :=
  match initialCode.getProp "html", initialCode.getProp "css", initialCode.getProp "js" with
  | .ok h, .ok c, .ok j => .ok (h, c, j)
  | _, _, _ => .error .cannotReadProperty

/-- The token `generateShareLink` builds:
`compressToEncodedURIComponent(JSON.stringify({ html, css, js }))`. -/
def shareToken (lz : LZString) (html css js : String) : String :=
  lz.compressToEncodedURIComponent (JSON.stringifyBundle html css js)

/-- The URL `generateShareLink` writes to the clipboard. -/
def generateShareLink (lz : LZString) (origin html css js : String) : String :=
  origin ++ "?code=" ++ shareToken lz html css js

/-! ## Composed documents -/

/-- The template literal the debounced effect passes to `setSrcDoc`. -/
def renderSrcDoc (html css js : String) : String :=
  "\n        <html>\n          <head><style>" ++ css ++ "</style></head>\n          <body>" ++ html ++ "<script>" ++ js ++ "</script></body>\n        </html>\n      "

/-- The template literal `fullCode` of `copyAllCode`, the text written to the
clipboard. -/
def copyAllCode (html css js : String) : String :=
  "\n      <html>\n        <head>\n          <style>" ++ css ++ "</style>\n        </head>\n        <body>\n          " ++ html ++ "\n          <script>" ++ js ++ "</script>\n        </body>\n      </html>\n    "

/-- The fields of `docSnap.data()` the component reads: each is missing or a
string. -/
structure SnippetData where
  html : Option String
  css : Option String
  js : Option String

/-- The template literal `loadSnippetById` passes to `setSrcDoc`; it
interpolates the fields of the record as they are. -/
def loadedSrcDoc (data : SnippetData) : String :=
  "\n          <html>\n            <head><style>" ++ interpolate data.css ++ "</style></head>\n            <body>" ++ interpolate data.html ++ "<script>" ++ interpolate data.js ++ "</script></body>\n          </html>\n        "

/-- Delete the blanks and line breaks of a text. -/
def stripWs (s : String) : String :=
  String.mk (s.data.filter fun c => !(c = ' ' || c = '\n'))

/-! ## The component as a state machine -/

/-- A pending timer of the browser: its handle, the time at which it is due
and the values of `html`, `css`, `js` its callback closes over. -/
structure Timer where
  id : Nat
  due : Nat
  html : String
  css : String
  js : String

/-- The state of a mounted (or unmounted) `App` together with the browser
state it acts on.  `timeout` is the handle the cleanup of the last run of the
debounce effect will clear. -/
structure AppState where
  html : String
  css : String
  js : String
  srcDoc : String
  theme : String
  localStorage : Storage
  timers : List Timer
  timeout : Option Nat
  nextTimerId : Nat
  now : Nat
  mounted : Bool

/-- The quiescence delay of the debounce effect. -/
def delay : Nat := 250

/-- The body of the debounce effect: `setTimeout(callback, 250)` with the
current `html`, `css`, `js`. -/
def runEffect (s : AppState) : AppState :=
  { s with
    timers := s.timers ++
      [{ id := s.nextTimerId, due := s.now + delay, html := s.html, css := s.css, js := s.js }]
    timeout := some s.nextTimerId
    nextTimerId := s.nextTimerId + 1 }

/-- `clearTimeout(handle)` on the timer table. -/
def clearTimeout (timers : List Timer) (handle : Option Nat) : List Timer :=
  match handle with
  | none => timers
  | some id => timers.filter fun t => t.id != id

/-- The cleanup of the debounce effect: `clearTimeout(timeout)`. -/
def cleanupEffect (s : AppState) : AppState :=
  { s with timers := clearTimeout s.timers s.timeout, timeout := none }

/-- The state setters `setHtml`, `setCss`, `setJs` of one handler followed by
the re-render: when a dependency of the debounce effect changed, its cleanup
runs and then the effect again; when none changed, nothing happens. -/
def setCode (s : AppState) (html css js : String) : AppState :=
  if html = s.html ∧ css = s.css ∧ js = s.js then s
  else runEffect (cleanupEffect { s with html := html, css := css, js := js })

/-- The state setter `setTheme` followed by the theme effect, which writes a
changed theme to storage. -/
def setTheme (s : AppState) (theme : String) : AppState :=
  if theme = s.theme then s
  else { s with theme := theme, localStorage := s.localStorage.setItem "theme" theme }

/-- The callback of the debounce timer: publish the composed document and
write the three values to storage. -/
def fire (s : AppState) (t : Timer) : AppState :=
  { s with
    srcDoc := renderSrcDoc t.html t.css t.js
    localStorage :=
      ((s.localStorage.setItem "html" t.html).setItem "css" t.css).setItem "js" t.js }

/-- The timers that come due when `dt` time-units pass. -/
def dueTimers (s : AppState) (dt : Nat) : List Timer :=
  s.timers.filter fun t => t.due ≤ s.now + dt

/-- Let `dt` time-units pass: the timers that come due fire in the order
they were set and leave the table. -/
def elapse (s : AppState) (dt : Nat) : AppState :=
  { (dueTimers s dt).foldl fire s with
    timers := s.timers.filter fun t => !decide (t.due ≤ s.now + dt)
    now := s.now + dt }

/-- The first render of `App` with the given initial code: the theme is read
from storage, and the two effects run (the debounce timer is set, the theme is
written to storage). -/
def mount (html css js : String) (ls : Storage) : AppState :=
  runEffect
    { html := html
      css := css
      js := js
      srcDoc := ""
      theme := orElse (ls.getItem "theme") "dark"
      localStorage := ls.setItem "theme" (orElse (ls.getItem "theme") "dark")
      timers := []
      timeout := none
      nextTimerId := 0
      now := 0
      mounted := true }

/-- Unmount: the cleanup of the debounce effect runs. -/
def unmount (s : AppState) : AppState :=
  { cleanupEffect s with mounted := false }

/-- An entry of `gist.files`. -/
structure GistFile where
  content : Option String

/-- The outcome of the two awaits of `loadGist`: the request or the parsing of
its body failed, or a JSON value arrived whose `files` is missing or a map from
file names to files. -/
inductive GistResponse where
  | failed : GistResponse
  | json (files : Option (String → Option GistFile)) : GistResponse

/-- The outcome of the await of `loadSnippetById`: the request failed, or a
snapshot arrived of a record that does not exist, or of one that does. -/
inductive SnippetResponse where
  | failed : SnippetResponse
  | missing : SnippetResponse
  | found (data : SnippetData) : SnippetResponse

/-- The expression `files[name]?.content || ""`. -/
def fileContent (files : String → Option GistFile) (name : String) : String :=
  orElse ((files name).bind fun f => f.content) ""

/-- What the replace rule asks of a file of a gist: its content, and the
empty string when the file or its content is missing. -/
def gistContent (files : String → Option GistFile) (name : String) : String :=
  match files name with
  | some ⟨some content⟩ => content
  | _ => ""

/-- The continuation of `loadGist` after its awaits.  Reading a file of a
missing `files` throws; the exception is caught and the state is unchanged. -/
def loadGist (s : AppState) : GistResponse → AppState
  | .failed => s
  | .json none => s
  | .json (some files) =>
    setCode s (fileContent files "index.html") (fileContent files "style.css")
      (fileContent files "script.js")

/-- The continuation of `loadSnippetById` after its await. -/
def loadSnippetById (s : AppState) : SnippetResponse → AppState
  | .failed => s
  | .missing => s
  | .found data =>
    { setCode s (orElse data.html "") (orElse data.css "") (orElse data.js "") with
      srcDoc := loadedSrcDoc data }

/-- The handler of the template selector. -/
def selectTemplate (s : AppState) (name : String) : AppState :=
  match lookupTemplate name templates with
  | some selected => setCode s selected.html selected.css selected.js
  | none => s

/-- The handler of the "Reset Code" button. -/
def resetCode (s : AppState) : AppState :=
  setCode
    { s with
      localStorage :=
        ((s.localStorage.removeItem "html").removeItem "css").removeItem "js" }
    "<h1>Hello</h1>" "h1 \x7b color: blue; \x7d" "console.log('Hello');"

/-- The handler of the theme button. -/
def toggleTheme (s : AppState) : AppState :=
  setTheme s (if s.theme = "dark" then "light" else "dark")

/-- An edit in one of the three editors (`onChange`). -/
inductive Edit where
  | html (value : String) : Edit
  | css (value : String) : Edit
  | js (value : String) : Edit

/-- The handler `onChange` of the editor an edit is made in. -/
def applyEdit (s : AppState) : Edit → AppState
  | .html v => setCode s v s.css s.js
  | .css v => setCode s s.html v s.js
  | .js v => setCode s s.html s.css v

/-- The events of the component. -/
inductive Event where
  | edit (e : Edit) : Event
  | elapse (dt : Nat) : Event
  | unmount : Event
  | resetCode : Event
  | toggleTheme : Event
  | selectTemplate (name : String) : Event
  | gistLoaded (r : GistResponse) : Event
  | snippetLoaded (r : SnippetResponse) : Event

/-- One event.  Time passes whether or not the component is mounted; every
other event reaches a mounted component only. -/
def step (s : AppState) (ev : Event) : AppState :=
  match ev with
  | .elapse dt => elapse s dt
  | .edit e => if s.mounted then applyEdit s e else s
  | .unmount => if s.mounted then unmount s else s
  | .resetCode => if s.mounted then resetCode s else s
  | .toggleTheme => if s.mounted then toggleTheme s else s
  | .selectTemplate name => if s.mounted then selectTemplate s name else s
  | .gistLoaded r => if s.mounted then loadGist s r else s
  | .snippetLoaded r => if s.mounted then loadSnippetById s r else s

/-- The documents the debounce timer publishes (and persists) during one
event, in order. -/
def published (s : AppState) : Event → List String
  | .elapse dt => (dueTimers s dt).map fun t => renderSrcDoc t.html t.css t.js
  | _ => []

/-- The state after a sequence of events. -/
def run (s : AppState) : List Event → AppState
  | [] => s
  | ev :: evs => run (step s ev) evs

/-- The documents the debounce timer publishes during a sequence of events. -/
def publishedBy (s : AppState) : List Event → List String
  | [] => []
  | ev :: evs => published s ev ++ publishedBy (step s ev) evs

/-- The states the component can be in: those reached from a first render by
a sequence of events. -/
inductive Reachable : AppState → Prop where
  | mount (html css js : String) (ls : Storage) : Reachable (mount html css js ls)
  | step (s : AppState) (ev : Event) : Reachable s → Reachable (step s ev)

/-- The field an edit changes differs from the current one. -/
def Edit.changes (s : AppState) : Edit → Prop
  | .html v => v ≠ s.html
  | .css v => v ≠ s.css
  | .js v => v ≠ s.js

/-- Each edit of a sequence, separated by pauses, changes the bundle it
finds. -/
def AllChange (s : AppState) : List (Nat × Edit) → Prop
  | [] => True
  | (dt, e) :: rest => e.changes (elapse s dt) ∧ AllChange (applyEdit (elapse s dt) e) rest

/-- Further edits, each after a pause. -/
def editsAfterPauses : List (Nat × Edit) → List Event
  | [] => []
  | (dt, e) :: rest => .elapse dt :: .edit e :: editsAfterPauses rest

/-- The events of a burst: a first edit, further edits each after a pause,
then a quiet period of the length of the delay. -/
def burst (first : Edit) (rest : List (Nat × Edit)) : List Event :=
  .edit first :: (editsAfterPauses rest ++ [.elapse delay])

/-- The bundle an edit leaves. -/
def Edit.update (b : String × String × String) : Edit → String × String × String
  | .html v => (v, b.2.1, b.2.2)
  | .css v => (b.1, v, b.2.2)
  | .js v => (b.1, b.2.1, v)

/-- The bundle of a state. -/
def AppState.bundle (s : AppState) : String × String × String := (s.html, s.css, s.js)

/-! ## Lemmas on the state machine -/

/-- The invariant of the timer table: it is empty, or the component is
mounted and the table holds exactly the timer the next cleanup clears. -/
def TimerInv (s : AppState) : Prop :=
  s.timers = [] ∨ (s.mounted = true ∧ ∃ t, s.timers = [t] ∧ s.timeout = some t.id)

/-- The state right after a run of the debounce effect: mounted, with exactly
one timer, set now for the current bundle. -/
def Armed (s : AppState) : Prop :=
  s.mounted = true ∧ ∃ id, s.timeout = some id ∧
    s.timers = [{ id := id, due := s.now + delay, html := s.html, css := s.css, js := s.js }]

theorem foldl_fire_fields (ts : List Timer) (s : AppState) :
    (ts.foldl fire s).html = s.html ∧ (ts.foldl fire s).css = s.css ∧
    (ts.foldl fire s).js = s.js ∧ (ts.foldl fire s).theme = s.theme ∧
    (ts.foldl fire s).timeout = s.timeout ∧ (ts.foldl fire s).mounted = s.mounted ∧
    (ts.foldl fire s).nextTimerId = s.nextTimerId := by
  induction ts generalizing s with
  | nil => simp
  | cons t ts ih =>
    have h := ih (fire s t)
    simpa [fire] using h

theorem elapse_fields (s : AppState) (dt : Nat) :
    (elapse s dt).html = s.html ∧ (elapse s dt).css = s.css ∧ (elapse s dt).js = s.js ∧
    (elapse s dt).theme = s.theme ∧ (elapse s dt).timeout = s.timeout ∧
    (elapse s dt).mounted = s.mounted ∧ (elapse s dt).now = s.now + dt ∧
    (elapse s dt).timers = s.timers.filter fun t => !decide (t.due ≤ s.now + dt) := by
  have h := foldl_fire_fields (dueTimers s dt) s
  exact ⟨h.1, h.2.1, h.2.2.1, h.2.2.2.1, h.2.2.2.2.1, h.2.2.2.2.2.1, rfl, rfl⟩

theorem clearTimeout_of_inv (s : AppState) (h : TimerInv s) :
    clearTimeout s.timers s.timeout = [] := by
  rcases h with h | ⟨_, t, ht, hid⟩
  · rw [h]; cases s.timeout <;> simp [clearTimeout]
  · rw [ht, hid]; simp [clearTimeout]

theorem setCode_armed (s : AppState) (html css js : String) (hm : s.mounted = true)
    (hinv : TimerInv s) (hne : ¬ (html = s.html ∧ css = s.css ∧ js = s.js)) :
    Armed (setCode s html css js) ∧ (setCode s html css js).html = html ∧
    (setCode s html css js).css = css ∧ (setCode s html css js).js = js ∧
    (setCode s html css js).now = s.now := by
  have hc := clearTimeout_of_inv s hinv
  refine ⟨⟨?_, s.nextTimerId, ?_, ?_⟩, ?_, ?_, ?_, ?_⟩ <;>
    simp [setCode, if_neg hne, runEffect, cleanupEffect, hc, hm]

theorem setCode_inv (s : AppState) (html css js : String) (hm : s.mounted = true)
    (hinv : TimerInv s) : TimerInv (setCode s html css js) := by
  by_cases hne : html = s.html ∧ css = s.css ∧ js = s.js
  · simpa [setCode, if_pos hne] using hinv
  · obtain ⟨⟨hm2, id, hid, ht⟩, _⟩ := setCode_armed s html css js hm hinv hne
    exact Or.inr ⟨hm2, _, ht, hid⟩

theorem setCode_mounted (s : AppState) (html css js : String) :
    (setCode s html css js).mounted = s.mounted := by
  unfold setCode
  split <;> simp [runEffect, cleanupEffect]

theorem setTheme_inv (s : AppState) (theme : String) (hinv : TimerInv s) :
    TimerInv (setTheme s theme) := by
  unfold setTheme
  split
  · exact hinv
  · exact hinv

theorem elapse_inv (s : AppState) (dt : Nat) (hinv : TimerInv s) : TimerInv (elapse s dt) := by
  obtain ⟨_, _, _, _, hto, hmo, _, hti⟩ := elapse_fields s dt
  rcases hinv with h | ⟨hm, t, ht, hid⟩
  · left; rw [hti, h]; rfl
  · by_cases hd : t.due ≤ s.now + dt
    · left; rw [hti, ht]; simp [hd]
    · right; refine ⟨by rw [hmo, hm], t, ?_, by rw [hto, hid]⟩
      rw [hti, ht]; simp [hd]

theorem step_inv (s : AppState) (ev : Event) (hinv : TimerInv s) : TimerInv (step s ev) := by
  cases ev with
  | elapse dt => exact elapse_inv s dt hinv
  | edit e =>
    by_cases hm : s.mounted = true
    · simp only [step, hm, if_true]
      cases e <;> exact setCode_inv s _ _ _ hm hinv
    · simpa [step, hm] using hinv
  | unmount =>
    by_cases hm : s.mounted = true
    · simp only [step, hm, if_true]
      left
      simp [unmount, cleanupEffect, clearTimeout_of_inv s hinv]
    · simpa [step, hm] using hinv
  | resetCode =>
    by_cases hm : s.mounted = true
    · simp only [step, hm, if_true]
      exact setCode_inv _ _ _ _ hm hinv
    · simpa [step, hm] using hinv
  | toggleTheme =>
    by_cases hm : s.mounted = true
    · simp only [step, hm, if_true, toggleTheme]
      exact setTheme_inv s _ hinv
    · simpa [step, hm] using hinv
  | selectTemplate name =>
    by_cases hm : s.mounted = true
    · simp only [step, hm, if_true, selectTemplate]
      split
      · exact setCode_inv s _ _ _ hm hinv
      · exact hinv
    · simpa [step, hm] using hinv
  | gistLoaded r =>
    by_cases hm : s.mounted = true
    · simp only [step, hm, if_true]
      cases r with
      | failed => exact hinv
      | json files =>
        cases files with
        | none => exact hinv
        | some files => exact setCode_inv s _ _ _ hm hinv
    · simpa [step, hm] using hinv
  | snippetLoaded r =>
    by_cases hm : s.mounted = true
    · simp only [step, hm, if_true]
      cases r with
      | failed => exact hinv
      | missing => exact hinv
      | found data =>
        have h := setCode_inv s (orElse data.html "") (orElse data.css "") (orElse data.js "")
          hm hinv
        have hm2 := setCode_mounted s (orElse data.html "") (orElse data.css "")
          (orElse data.js "")
        simpa [loadSnippetById, TimerInv] using h
    · simpa [step, hm] using hinv

theorem mount_armed (html css js : String) (ls : Storage) : Armed (mount html css js ls) :=
  ⟨rfl, 0, rfl, rfl⟩

theorem reachable_inv (s : AppState) (h : Reachable s) : TimerInv s := by
  induction h with
  | mount html css js ls =>
    obtain ⟨hm, id, hid, ht⟩ := mount_armed html css js ls
    exact Or.inr ⟨hm, _, ht, hid⟩
  | step s ev _ ih => exact step_inv s ev ih

theorem armed_inv (s : AppState) (h : Armed s) : TimerInv s := by
  obtain ⟨hm, id, hid, ht⟩ := h
  exact Or.inr ⟨hm, _, ht, hid⟩

theorem applyEdit_armed (s : AppState) (e : Edit) (hm : s.mounted = true)
    (hinv : TimerInv s) (hch : e.changes s) :
    Armed (applyEdit s e) ∧ (applyEdit s e).bundle = e.update s.bundle := by
  cases e with
  | html v =>
    have h := setCode_armed s v s.css s.js hm hinv (fun hh => hch hh.1)
    exact ⟨h.1, by simp [applyEdit, AppState.bundle, Edit.update, h.2.1, h.2.2.1, h.2.2.2.1]⟩
  | css v =>
    have h := setCode_armed s s.html v s.js hm hinv (fun hh => hch hh.2.1)
    exact ⟨h.1, by simp [applyEdit, AppState.bundle, Edit.update, h.2.1, h.2.2.1, h.2.2.2.1]⟩
  | js v =>
    have h := setCode_armed s s.html s.css v hm hinv (fun hh => hch hh.2.2)
    exact ⟨h.1, by simp [applyEdit, AppState.bundle, Edit.update, h.2.1, h.2.2.1, h.2.2.2.1]⟩

/-- A pause shorter than the delay right after a run of the effect: nothing
is published and the timer stays. -/
theorem elapse_short (s : AppState) (h : Armed s) (dt : Nat) (hdt : dt < delay) :
    published s (.elapse dt) = [] ∧ TimerInv (elapse s dt) ∧
    (elapse s dt).mounted = true ∧ (elapse s dt).bundle = s.bundle := by
  obtain ⟨hh, hc, hj, _, _, hmo, _, _⟩ := elapse_fields s dt
  obtain ⟨hm, id, hid, ht⟩ := h
  refine ⟨?_, elapse_inv s dt (armed_inv s ⟨hm, id, hid, ht⟩), by rw [hmo, hm], ?_⟩
  · have : ¬ (s.now + delay ≤ s.now + dt) := by omega
    simp [published, dueTimers, ht, this]
  · simp [AppState.bundle, hh, hc, hj]

/-- A quiet period of the length of the delay right after a run of the
effect: the timer fires once, for the current bundle. -/
theorem elapse_delay (s : AppState) (h : Armed s) :
    published s (.elapse delay) = [renderSrcDoc s.html s.css s.js] ∧
    (elapse s delay).srcDoc = renderSrcDoc s.html s.css s.js ∧
    (elapse s delay).localStorage.getItem "html" = some s.html ∧
    (elapse s delay).localStorage.getItem "css" = some s.css ∧
    (elapse s delay).localStorage.getItem "js" = some s.js ∧
    (elapse s delay).bundle = s.bundle ∧ (elapse s delay).timers = [] := by
  obtain ⟨hm, id, hid, ht⟩ := h
  have hd : dueTimers s delay = [{ id := id, due := s.now + delay, html := s.html, css := s.css, js := s.js }] := by
    simp [dueTimers, ht]
  refine ⟨by simp [published, hd], ?_, ?_, ?_, ?_, ?_, ?_⟩ <;>
    simp [elapse, hd, fire, ht, Storage.getItem, Storage.setItem, AppState.bundle]

theorem burst_rest (rest : List (Nat × Edit)) :
    ∀ s : AppState, Armed s → (∀ p ∈ rest, p.1 < delay) → AllChange s rest →
      publishedBy s (editsAfterPauses rest ++ [.elapse delay]) =
        [renderSrcDoc (run s (editsAfterPauses rest ++ [.elapse delay])).html
          (run s (editsAfterPauses rest ++ [.elapse delay])).css
          (run s (editsAfterPauses rest ++ [.elapse delay])).js] ∧
      (run s (editsAfterPauses rest ++ [.elapse delay])).bundle =
        (rest.map Prod.snd).foldl Edit.update s.bundle ∧
      (run s (editsAfterPauses rest ++ [.elapse delay])).srcDoc =
        renderSrcDoc (run s (editsAfterPauses rest ++ [.elapse delay])).html
          (run s (editsAfterPauses rest ++ [.elapse delay])).css
          (run s (editsAfterPauses rest ++ [.elapse delay])).js ∧
      (run s (editsAfterPauses rest ++ [.elapse delay])).localStorage.getItem "html" =
        some (run s (editsAfterPauses rest ++ [.elapse delay])).html ∧
      (run s (editsAfterPauses rest ++ [.elapse delay])).localStorage.getItem "css" =
        some (run s (editsAfterPauses rest ++ [.elapse delay])).css ∧
      (run s (editsAfterPauses rest ++ [.elapse delay])).localStorage.getItem "js" =
        some (run s (editsAfterPauses rest ++ [.elapse delay])).js := by
  induction rest with
  | nil =>
    intro s harm _ _
    obtain ⟨hp, hdoc, h1, h2, h3, hb, _⟩ := elapse_delay s harm
    have hb2 : (elapse s delay).html = s.html ∧ (elapse s delay).css = s.css ∧
        (elapse s delay).js = s.js := by
      simpa [AppState.bundle] using hb
    simp only [editsAfterPauses, List.nil_append, publishedBy, run, step, List.append_nil,
      List.map_nil, List.foldl_nil]
    rw [hb2.1, hb2.2.1, hb2.2.2]
    exact ⟨hp, hb, hdoc, h1, h2, h3⟩
  | cons p rest ih =>
    intro s harm hgap hch
    obtain ⟨dt, e⟩ := p
    have hdt : dt < delay := hgap (dt, e) (List.mem_cons_self _ _)
    obtain ⟨hp, hinv, hm, hb⟩ := elapse_short s harm dt hdt
    obtain ⟨harm2, hb2⟩ := applyEdit_armed (elapse s dt) e hm hinv hch.1
    have hih := ih (applyEdit (elapse s dt) e) harm2
      (fun q hq => hgap q (List.mem_cons_of_mem _ hq)) hch.2
    have hp2 : published (elapse s dt) (.edit e) = [] := rfl
    simp only [editsAfterPauses, List.cons_append, publishedBy, run, step, hm, if_true, hp,
      hp2, List.nil_append, List.map_cons, List.foldl_cons]
    rw [← hb, ← hb2]
    exact hih

/-- After the component is gone from a state that satisfies the invariant, no
timer is left and none is ever set. -/
theorem quiet_after_unmount (evs : List Event) :
    ∀ s : AppState, s.timers = [] → s.mounted = false → publishedBy s evs = [] := by
  induction evs with
  | nil => intro s _ _; rfl
  | cons ev evs ih =>
    intro s ht hm
    have hstep : (step s ev).timers = [] ∧ (step s ev).mounted = false := by
      cases ev with
      | elapse dt =>
        obtain ⟨_, _, _, _, _, hmo, _, hti⟩ := elapse_fields s dt
        exact ⟨by simp [step, hti, ht], by simp [step, hmo, hm]⟩
      | _ => simp [step, hm, ht]
    have hpub : published s ev = [] := by
      cases ev with
      | elapse dt => simp [published, dueTimers, ht]
      | _ => rfl
    simp only [publishedBy, hpub, List.nil_append]
    exact ih _ hstep.1 hstep.2

theorem unmount_quiet (s : AppState) (hinv : TimerInv s) :
    (step s .unmount).timers = [] ∧ (step s .unmount).mounted = false := by
  by_cases hm : s.mounted = true
  · simp [step, hm, unmount, cleanupEffect, clearTimeout_of_inv s hinv]
  · rcases hinv with h | ⟨hm2, _⟩
    · simp [step, hm, h]
    · exact absurd hm2 hm

/-! ## Lemmas on JSON text -/

namespace JSON

theorem hex4_unicodeEscape : ∀ n : Fin 32,
    hex4 (hexDigit (n.val / 4096 % 16)) (hexDigit (n.val / 256 % 16)) (hexDigit (n.val / 16 % 16))
      (hexDigit (n.val % 16)) = some n.val := by
  decide

theorem parseStringBody_literal (c : Char) (cs : List Char) (h1 : c ≠ '"') (h2 : c ≠ '\\')
    (h3 : ¬ c.toNat < 0x20) :
    parseStringBody none (c :: cs) =
      (parseStringBody none cs).map fun r => (c :: r.1, r.2) := by
  rw [parseStringBody.eq_def]
  simp [h1, h2, h3, flush]

theorem parseStringBody_simple (e ch : Char) (cs : List Char) (h : simpleEscape e = some ch)
    (hu : e ≠ 'u') :
    parseStringBody none ('\\' :: e :: cs) =
      (parseStringBody none cs).map fun r => (ch :: r.1, r.2) := by
  rw [parseStringBody.eq_def]
  simp [h, hu, flush]

theorem parseStringBody_unicode (n : Nat) (hn : n < 32) (cs : List Char) :
    parseStringBody none (unicodeEscape n ++ cs) =
      (parseStringBody none cs).map fun r => (Char.ofNat n :: r.1, r.2) := by
  have hx := hex4_unicodeEscape ⟨n, hn⟩
  simp only at hx
  rw [parseStringBody.eq_def]
  have h1 : ¬ (55296 ≤ n ∧ n ≤ 56319) := by omega
  have h2 : ¬ (55296 ≤ n ∧ n ≤ 57343) := by omega
  simp [unicodeEscape, hx, flush, escapedChar, h1, h2]

theorem parseStringBody_quoteChar (c : Char) (cs : List Char) :
    parseStringBody none (quoteChar c ++ cs) =
      (parseStringBody none cs).map fun r => (c :: r.1, r.2) := by
  unfold quoteChar
  split
  · next h => subst h; exact parseStringBody_simple 'b' _ cs (by decide) (by decide)
  split
  · next h => subst h; exact parseStringBody_simple 't' _ cs (by decide) (by decide)
  split
  · next h => subst h; exact parseStringBody_simple 'n' _ cs (by decide) (by decide)
  split
  · next h => subst h; exact parseStringBody_simple 'f' _ cs (by decide) (by decide)
  split
  · next h => subst h; exact parseStringBody_simple 'r' _ cs (by decide) (by decide)
  split
  · next h => subst h; exact parseStringBody_simple '"' _ cs (by decide) (by decide)
  split
  · next h => subst h; exact parseStringBody_simple '\\' _ cs (by decide) (by decide)
  split
  · next h =>
    have := parseStringBody_unicode c.toNat h cs
    simpa using this
  · next h1 h2 h3 => exact parseStringBody_literal c cs h1 h2 h3

theorem parseStringBody_quoteBody (s rest : List Char) :
    parseStringBody none (quoteBody s ++ '"' :: rest) = some (s, rest) := by
  induction s with
  | nil => rw [parseStringBody.eq_def]; simp [quoteBody, flush]
  | cons c cs ih =>
    simp only [quoteBody, List.append_assoc]
    rw [parseStringBody_quoteChar, ih]
    rfl

/-- The characters of `stringifyBundle`. -/
theorem stringifyBundle_data (html css js : String) :
    (stringifyBundle html css js).data =
      '{' :: '"' :: 'h' :: 't' :: 'm' :: 'l' :: '"' :: ':' :: '"' :: (quoteBody html.data ++
        '"' :: ',' :: '"' :: 'c' :: 's' :: 's' :: '"' :: ':' :: '"' :: (quoteBody css.data ++
        '"' :: ',' :: '"' :: 'j' :: 's' :: '"' :: ':' :: '"' :: (quoteBody js.data ++
        ['"', '}']))) := by
  simp [stringifyBundle, quoteJSONString]

theorem parseStringBody_key (key rest : List Char) (h : quoteBody key = key) :
    parseStringBody none (key ++ '"' :: rest) = some (key, rest) := by
  have := parseStringBody_quoteBody key rest
  rwa [h] at this

theorem parseValue_string (fuel : Nat) (s rest : List Char) :
    parseValue (fuel + 1) ('"' :: (quoteBody s ++ '"' :: rest)) =
      some (.string (String.mk s), rest) := by
  rw [parseValue.eq_def]
  simp [parseStringBody_quoteBody]

theorem parseValue_bundle (fuel : Nat) (html css js : String) :
    parseValue (fuel + 5) (stringifyBundle html css js).data =
      some (.object [("html", .string html), ("css", .string css), ("js", .string js)], []) := by
  rw [stringifyBundle_data]
  have k1 := fun rest => parseStringBody_key ['h', 't', 'm', 'l'] rest (by decide)
  have k2 := fun rest => parseStringBody_key ['c', 's', 's'] rest (by decide)
  have k3 := fun rest => parseStringBody_key ['j', 's'] rest (by decide)
  simp only [List.cons_append, List.nil_append] at k1 k2 k3
  rw [parseValue.eq_def]
  simp [skipWs, isWs]
  rw [parseMembers.eq_def]
  simp [k1, skipWs, isWs]
  rw [parseValue_string]
  simp [skipWs, isWs]
  rw [parseMembers.eq_def]
  simp [k2, skipWs, isWs]
  rw [parseValue_string]
  simp [skipWs, isWs]
  rw [parseMembers.eq_def]
  simp [k3, skipWs, isWs]
  have := parseValue_string fuel js.data ['}']
  simp only [List.cons_append, List.nil_append] at this
  rw [this]
  simp [skipWs, isWs]

theorem parse_stringifyBundle (html css js : String) :
    parse (stringifyBundle html css js) =
      .ok (.object [("html", .string html), ("css", .string css), ("js", .string js)]) := by
  have hlen : 2 ≤ (stringifyBundle html css js).length := by
    rw [String.length, stringifyBundle_data]
    simp
  obtain ⟨k, hk⟩ : ∃ k, 2 * (stringifyBundle html css js).length + 2 = k + 5 :=
    ⟨2 * (stringifyBundle html css js).length + 2 - 5, by omega⟩
  have hws : skipWs (stringifyBundle html css js).data = (stringifyBundle html css js).data := by
    rw [stringifyBundle_data]
    simp [skipWs, isWs]
  rw [parse, hk, hws, parseValue_bundle]
  simp [skipWs]

end JSON

/-! ## Initial code and the share token -/

theorem markCodec_leftInverse : markCodec.LeftInverse := fun _ => rfl

theorem orElse_none (fallback : String) : orElse none fallback = fallback := rfl

theorem orElse_empty (fallback : String) : orElse (some "") fallback = fallback := by
  simp [orElse]

theorem orElse_some (v fallback : String) (h : v ≠ "") : orElse (some v) fallback = v := by
  simp [orElse, h]

theorem orElse_getD (value : Option String) : orElse value "" = value.getD "" := by
  cases value with
  | none => rfl
  | some v =>
    by_cases h : v = ""
    · simp [orElse, h]
    · simp [orElse, h]

/-- A decoding that throws is caught: the storage bundle is returned, as when
no `code` parameter is present. -/
theorem getInitialCode_of_throw (lz : LZString) (compressed : String) (ls : Storage)
    (h : decodeShared lz compressed = none) :
    getInitialCode lz (some compressed) ls = getInitialCode lz none ls := by
  simp only [getInitialCode, h]
  split <;> rfl

/-- A decompression that throws, or a decompressed text that is not JSON,
makes the decoding throw. -/
theorem decodeShared_throws (lz : LZString) (compressed : String) :
    (lz.decompressFromEncodedURIComponent compressed = .threw →
      decodeShared lz compressed = none) ∧
    (∀ text err, lz.decompressFromEncodedURIComponent compressed = .text text →
      JSON.parse text = .error err → decodeShared lz compressed = none) := by
  constructor
  · intro h
    simp [decodeShared, h, Decompressed.toText]
  · intro text err h he
    simp [decodeShared, h, Decompressed.toText, he]

/-- C1. Share-token round trip: when decompression is a left inverse of
compression, decoding the token `generateShareLink` builds from `html`, `css`,
`js` with the decode path of `getInitialCode` does not throw and yields an
object whose fields `html`, `css`, `js` are the three strings; `getInitialCode`
returns that object for the token (a non-empty token, as every `code` parameter
that is decoded), whatever the storage holds. -/
theorem share_token_round_trip (lz : LZString) (hlz : lz.LeftInverse) (html css js : String) :
    decodeShared lz (shareToken lz html css js) =
      some (.object [("html", .string html), ("css", .string css), ("js", .string js)]) ∧
    initialFields (.object [("html", .string html), ("css", .string css), ("js", .string js)]) =
      .ok (.string html, .string css, .string js) ∧
    ∀ ls : Storage, shareToken lz html css js ≠ "" →
      getInitialCode lz (some (shareToken lz html css js)) ls =
        .object [("html", .string html), ("css", .string css), ("js", .string js)] := by
  have hdec : decodeShared lz (shareToken lz html css js) =
      some (.object [("html", .string html), ("css", .string css), ("js", .string js)]) := by
    simp only [decodeShared, shareToken, hlz (JSON.stringifyBundle html css js),
      Decompressed.toText, JSON.parse_stringifyBundle]
  refine ⟨hdec, ?_, ?_⟩
  · simp [initialFields, JSValue.getProp, lookupMember]
  · intro ls hne
    simp only [getInitialCode, hdec, if_neg hne]

/-- C1 at the mark codec and a bundle with a quote, a line break and braces. -/
theorem share_token_round_trip_witness :
    markCodec.LeftInverse ∧
    decodeShared markCodec (shareToken markCodec "<p>\"hi\"</p>\n" "p\x7bcolor:red\x7d" "") =
      some (.object [("html", .string "<p>\"hi\"</p>\n"), ("css", .string "p\x7bcolor:red\x7d"),
        ("js", .string "")]) :=
  ⟨markCodec_leftInverse,
    (share_token_round_trip markCodec markCodec_leftInverse "<p>\"hi\"</p>\n" "p\x7bcolor:red\x7d" "").1⟩

/-- C2 (the code at a failing input). A non-empty `code` parameter whose
decompression returns `null` is not treated as absent: `JSON.parse(null)`
returns `null` without throwing, `getInitialCode` returns `null`, which is not
the storage bundle it returns without a parameter, and the read
`initialCode.html` of `App` throws, while the reads from the storage bundle
succeed. -/
theorem null_token_not_absent (lz : LZString) (compressed : String) (ls : Storage)
    (hne : compressed ≠ "") (hnull : lz.decompressFromEncodedURIComponent compressed = .null) :
    getInitialCode lz (some compressed) ls = .null ∧
    getInitialCode lz (some compressed) ls ≠ getInitialCode lz none ls ∧
    initialFields (getInitialCode lz (some compressed) ls) = .error .cannotReadProperty ∧
    getInitialCode lz none ls = storedCode ls ∧
    initialFields (getInitialCode lz none ls) =
      .ok (.string (orElse (ls.getItem "html") "<h1>Hello</h1>"),
        .string (orElse (ls.getItem "css") "h1 \x7b color: blue; \x7d"),
        .string (orElse (ls.getItem "js") "console.log('Hello');")) := by
  have hnullparse : JSON.parse "null" = .ok .null := rfl
  have h1 : getInitialCode lz (some compressed) ls = .null := by
    simp only [getInitialCode, if_neg hne, decodeShared, hnull, Decompressed.toText, hnullparse]
  refine ⟨h1, ?_, ?_, rfl, ?_⟩
  · rw [h1]
    intro hc
    cases hc
  · rw [h1]; rfl
  · simp [getInitialCode, storedCode, initialFields, JSValue.getProp, lookupMember]

/-- C2 at the mark codec, the token `x` and an empty storage. -/
theorem null_token_not_absent_witness :
    "x" ≠ "" ∧ markCodec.decompressFromEncodedURIComponent "x" = .null ∧
    getInitialCode markCodec (some "x") Storage.empty = .null ∧
    initialFields (getInitialCode markCodec (some "x") Storage.empty) =
      .error .cannotReadProperty :=
  ⟨by decide, rfl, (null_token_not_absent markCodec "x" Storage.empty (by decide) rfl).1,
    (null_token_not_absent markCodec "x" Storage.empty (by decide) rfl).2.2.1⟩

/-- A token whose text is the JSON value `{}` is returned as parsed, an object
without the three fields, whatever codec satisfies the round-trip law. -/
theorem empty_object_token (lz : LZString) (hlz : lz.LeftInverse) (ls : Storage)
    (hne : lz.compressToEncodedURIComponent "\x7b\x7d" ≠ "") :
    getInitialCode lz (some (lz.compressToEncodedURIComponent "\x7b\x7d")) ls = .object [] ∧
    initialFields (.object []) = .ok (.undefined, .undefined, .undefined) := by
  have hparse : JSON.parse "\x7b\x7d" = .ok (.object []) := rfl
  constructor
  · simp only [getInitialCode, if_neg hne, decodeShared, hlz "\x7b\x7d", Decompressed.toText, hparse]
  · rfl

/-- C3 (counterexample). With the entry `html` present and empty, the initial
`html` is the hardcoded default, not the stored entry. -/
theorem empty_entry_gives_default :
    (Storage.empty.setItem "html" "").getItem "html" = some "" ∧
    (getInitialCode markCodec none (Storage.empty.setItem "html" "")).getProp "html" =
      .ok (.string "<h1>Hello</h1>") ∧
    (getInitialCode markCodec none (Storage.empty.setItem "html" "")).getProp "html" ≠
      .ok (.string "") := by
  refine ⟨rfl, rfl, ?_⟩
  have h : (getInitialCode markCodec none (Storage.empty.setItem "html" "")).getProp "html" =
      .ok (.string "<h1>Hello</h1>") := rfl
  rw [h]
  intro hc
  have h2 : "<h1>Hello</h1>" = "" := JSValue.string.inj (Except.ok.inj hc)
  exact absurd h2 (by decide)

theorem storedCode_getProp (ls : Storage) :
    (storedCode ls).getProp "html" = .ok (.string (orElse (ls.getItem "html") "<h1>Hello</h1>")) ∧
    (storedCode ls).getProp "css" = .ok (.string (orElse (ls.getItem "css") "h1 \x7b color: blue; \x7d")) ∧
    (storedCode ls).getProp "js" = .ok (.string (orElse (ls.getItem "js") "console.log('Hello');")) := by
  simp [storedCode, JSValue.getProp, lookupMember]

/-- C3 (amended). Without a `code` parameter, each of the three initial fields
is read from its own storage entry: it is the stored string when the entry is
present and not empty, and the hardcoded default when the entry is absent or
empty. -/
theorem initial_code_from_storage (lz : LZString) (ls : Storage) :
    initialFields (getInitialCode lz none ls) =
      .ok (.string (orElse (ls.getItem "html") "<h1>Hello</h1>"),
        .string (orElse (ls.getItem "css") "h1 \x7b color: blue; \x7d"),
        .string (orElse (ls.getItem "js") "console.log('Hello');")) ∧
    ∀ p ∈ [("html", "<h1>Hello</h1>"), ("css", "h1 \x7b color: blue; \x7d"),
        ("js", "console.log('Hello');")],
      (∀ v, ls.getItem p.1 = some v → v ≠ "" →
        (getInitialCode lz none ls).getProp p.1 = .ok (.string v)) ∧
      (ls.getItem p.1 = none ∨ ls.getItem p.1 = some "" →
        (getInitialCode lz none ls).getProp p.1 = .ok (.string p.2)) := by
  obtain ⟨h1, h2, h3⟩ := storedCode_getProp ls
  have hg : getInitialCode lz none ls = storedCode ls := rfl
  rw [hg]
  constructor
  · simp only [initialFields, h1, h2, h3]
  intro p hp
  simp only [List.mem_cons, List.mem_singleton, List.not_mem_nil, or_false] at hp
  rcases hp with h | h | h <;> subst h <;> simp only
  · rw [h1]
    refine ⟨fun v hv hne => ?_, fun h => ?_⟩
    · rw [hv, orElse_some v _ hne]
    · rcases h with h | h
      · rw [h, orElse_none]
      · rw [h, orElse_empty]
  · rw [h2]
    refine ⟨fun v hv hne => ?_, fun h => ?_⟩
    · rw [hv, orElse_some v _ hne]
    · rcases h with h | h
      · rw [h, orElse_none]
      · rw [h, orElse_empty]
  · rw [h3]
    refine ⟨fun v hv hne => ?_, fun h => ?_⟩
    · rw [hv, orElse_some v _ hne]
    · rcases h with h | h
      · rw [h, orElse_none]
      · rw [h, orElse_empty]

/-- The amended C3 at a storage that holds a style only: the style is the
stored one, the markup is the default. -/
theorem initial_code_from_storage_witness :
    (getInitialCode markCodec none (Storage.empty.setItem "css" "p\x7b\x7d")).getProp "css" =
      .ok (.string "p\x7b\x7d") ∧
    (getInitialCode markCodec none (Storage.empty.setItem "css" "p\x7b\x7d")).getProp "html" =
      .ok (.string "<h1>Hello</h1>") :=
  ⟨((initial_code_from_storage markCodec (Storage.empty.setItem "css" "p\x7b\x7d")).2
      ("css", "h1 \x7b color: blue; \x7d") (by simp)).1 "p\x7b\x7d" rfl (by decide),
    ((initial_code_from_storage markCodec (Storage.empty.setItem "css" "p\x7b\x7d")).2
      ("html", "<h1>Hello</h1>") (by simp)).2 (Or.inl rfl)⟩

/-! ## The debounced renderer -/

theorem setCode_fields (s : AppState) (html css js : String) :
    (setCode s html css js).html = html ∧ (setCode s html css js).css = css ∧
    (setCode s html css js).js = js ∧
    (setCode s html css js).localStorage = s.localStorage ∧
    (setCode s html css js).theme = s.theme := by
  unfold setCode
  split
  · next h => exact ⟨h.1.symm, h.2.1.symm, h.2.2.symm, rfl, rfl⟩
  · exact ⟨rfl, rfl, rfl, rfl, rfl⟩

/-- C4. Debounce.  In every reachable state at most one timer is pending.
From a reachable state of a mounted component, a first bundle-changing edit,
then any number of further bundle-changing edits each less than the delay
after the previous one, then a quiet period of the length of the delay,
publish exactly one document: the one composed from the fields the last edit
left, which are also the three values written to storage.  After an unmount
nothing is published, whatever events follow. -/
theorem debounce (s : AppState) (hs : Reachable s) :
    s.timers.length ≤ 1 ∧
    (∀ (first : Edit) (rest : List (Nat × Edit)), s.mounted = true → first.changes s →
      AllChange (applyEdit s first) rest → (∀ p ∈ rest, p.1 < delay) →
      publishedBy s (burst first rest) =
        [renderSrcDoc (run s (burst first rest)).html (run s (burst first rest)).css
          (run s (burst first rest)).js] ∧
      (run s (burst first rest)).bundle =
        (first :: rest.map Prod.snd).foldl Edit.update s.bundle ∧
      (run s (burst first rest)).srcDoc =
        renderSrcDoc (run s (burst first rest)).html (run s (burst first rest)).css
          (run s (burst first rest)).js ∧
      (run s (burst first rest)).localStorage.getItem "html" =
        some (run s (burst first rest)).html ∧
      (run s (burst first rest)).localStorage.getItem "css" =
        some (run s (burst first rest)).css ∧
      (run s (burst first rest)).localStorage.getItem "js" =
        some (run s (burst first rest)).js) ∧
    (∀ evs : List Event, publishedBy (step s .unmount) evs = []) := by
  have hinv := reachable_inv s hs
  refine ⟨?_, ?_, ?_⟩
  · rcases hinv with h | ⟨_, t, ht, _⟩
    · simp [h]
    · simp [ht]
  · intro first rest hm hch hall hgap
    obtain ⟨harm, hb⟩ := applyEdit_armed s first hm hinv hch
    have h := burst_rest rest (applyEdit s first) harm hgap hall
    have hp : published s (.edit first) = [] := rfl
    simp only [burst, publishedBy, run, step, hm, if_true, hp, List.nil_append,
      List.foldl_cons]
    rw [← hb]
    exact h
  · intro evs
    obtain ⟨ht, hm⟩ := unmount_quiet s hinv
    exact quiet_after_unmount evs _ ht hm

/-- C4 at a first render followed by three edits 100 and 249 time-units
apart: one document is published, that of the last values. -/
theorem debounce_witness :
    Reachable (mount "a" "b" "c" Storage.empty) ∧
    publishedBy (mount "a" "b" "c" Storage.empty)
      (burst (.html "x") [(100, .css "y"), (249, .js "z")]) = [renderSrcDoc "x" "y" "z"] := by
  refine ⟨Reachable.mount _ _ _ _, ?_⟩
  have h := (debounce (mount "a" "b" "c" Storage.empty) (Reachable.mount _ _ _ _)).2.1
    (.html "x") [(100, .css "y"), (249, .js "z")] rfl (by show "x" ≠ "a"; decide)
    (by
      refine ⟨?_, ?_, trivial⟩
      · show "y" ≠ _
        rw [(elapse_fields _ _).2.1]
        decide
      · show "z" ≠ _
        rw [(elapse_fields _ _).2.2.1]
        decide)
    (by decide)
  obtain ⟨hp, hb, _⟩ := h
  have hb2 : (run (mount "a" "b" "c" Storage.empty)
      (burst (.html "x") [(100, .css "y"), (249, .js "z")])).bundle = ("x", "y", "z") := by
    rw [hb]; rfl
  simp only [AppState.bundle, Prod.mk.injEq] at hb2
  rw [hp, hb2.1, hb2.2.1, hb2.2.2]

/-! ## Composed documents -/

/-- C5. Composition rule: the document the debounce timer publishes is a fixed
text, `<head><style>`, the style verbatim, `</style></head>`, a fixed text,
`<body>`, the markup verbatim, `<script>`, the script verbatim,
`</script></body>` and a fixed text; its length is the sum of the three
lengths and of the fixed parts; the callback of the timer writes the same three
values to the storage keys `html`, `css`, `js`, and so does the first render
followed by a quiet period.  For the markup `<p>hi</p>`, the style
`p{color:red}` and an empty script the document has the style in its head and
the markup followed by an empty script block in its body. -/
theorem composition_rule (markup style script : String) :
    renderSrcDoc markup style script =
      "\n        <html>\n          " ++ "<head><style>" ++ style ++ "</style></head>" ++
        "\n          " ++ "<body>" ++ markup ++ "<script>" ++ script ++ "</script></body>" ++
        "\n        </html>\n      " ∧
    (renderSrcDoc markup style script).length =
      markup.length + style.length + script.length + 118 ∧
    (∀ (s : AppState) (id due : Nat),
      (fire s ⟨id, due, markup, style, script⟩).srcDoc = renderSrcDoc markup style script ∧
      (fire s ⟨id, due, markup, style, script⟩).localStorage.getItem "html" = some markup ∧
      (fire s ⟨id, due, markup, style, script⟩).localStorage.getItem "css" = some style ∧
      (fire s ⟨id, due, markup, style, script⟩).localStorage.getItem "js" = some script) ∧
    (∀ ls : Storage,
      published (mount markup style script ls) (.elapse delay) =
        [renderSrcDoc markup style script] ∧
      (step (mount markup style script ls) (.elapse delay)).srcDoc =
        renderSrcDoc markup style script ∧
      (step (mount markup style script ls) (.elapse delay)).localStorage.getItem "html" =
        some markup ∧
      (step (mount markup style script ls) (.elapse delay)).localStorage.getItem "css" =
        some style ∧
      (step (mount markup style script ls) (.elapse delay)).localStorage.getItem "js" =
        some script) ∧
    renderSrcDoc "<p>hi</p>" "p\x7bcolor:red\x7d" "" =
      "\n        <html>\n          <head><style>p\x7bcolor:red\x7d</style></head>\n          <body><p>hi</p><script></script></body>\n        </html>\n      " := by
  refine ⟨?_, ?_, ?_, ?_, by decide⟩
  · apply String.ext
    simp only [renderSrcDoc, String.data_append, List.append_assoc]
    rfl
  · simp only [renderSrcDoc, String.length_append]
    have h1 : "\n        <html>\n          <head><style>".length = 39 := by decide
    have h2 : "</style></head>\n          <body>".length = 32 := by decide
    have h3 : "<script>".length = 8 := by decide
    have h4 : "</script></body>\n        </html>\n      ".length = 39 := by decide
    rw [h1, h2, h3, h4]
    omega
  · intro s id due
    simp [fire, Storage.getItem, Storage.setItem]
  · intro ls
    obtain ⟨hp, hdoc, h1, h2, h3, _, _⟩ := elapse_delay _ (mount_armed markup style script ls)
    exact ⟨hp, hdoc, h1, h2, h3⟩

/-- C8 (counterexample). For three empty fields the text `copyAllCode` writes to
the clipboard is not the document the renderer publishes. -/
theorem copy_differs_from_render : copyAllCode "" "" "" ≠ renderSrcDoc "" "" "" := by
  decide

/-- C8 (amended). The text `copyAllCode` writes to the clipboard and the
document the renderer publishes hold the same tags and the same three values,
verbatim and in the same order; the fixed texts between the values differ only
in blanks and line breaks, so that deleting the blanks and line breaks of both
texts gives the same text. -/
theorem copy_equals_render_up_to_blanks (markup style script : String) :
    copyAllCode markup style script =
      "\n      <html>\n        <head>\n          <style>" ++ style ++
        "</style>\n        </head>\n        <body>\n          " ++ markup ++
        "\n          <script>" ++ script ++
        "</script>\n        </body>\n      </html>\n    " ∧
    renderSrcDoc markup style script =
      "\n        <html>\n          <head><style>" ++ style ++
        "</style></head>\n          <body>" ++ markup ++
        "<script>" ++ script ++
        "</script></body>\n        </html>\n      " ∧
    stripWs "\n      <html>\n        <head>\n          <style>" =
      stripWs "\n        <html>\n          <head><style>" ∧
    stripWs "</style>\n        </head>\n        <body>\n          " =
      stripWs "</style></head>\n          <body>" ∧
    stripWs "\n          <script>" = stripWs "<script>" ∧
    stripWs "</script>\n        </body>\n      </html>\n    " =
      stripWs "</script></body>\n        </html>\n      " ∧
    stripWs (copyAllCode markup style script) = stripWs (renderSrcDoc markup style script) := by
  have e1 : stripWs "\n      <html>\n        <head>\n          <style>" =
      stripWs "\n        <html>\n          <head><style>" := by decide
  have e2 : stripWs "</style>\n        </head>\n        <body>\n          " =
      stripWs "</style></head>\n          <body>" := by decide
  have e3 : stripWs "\n          <script>" = stripWs "<script>" := by decide
  have e4 : stripWs "</script>\n        </body>\n      </html>\n    " =
      stripWs "</script></body>\n        </html>\n      " := by decide
  refine ⟨rfl, rfl, e1, e2, e3, e4, ?_⟩
  have happ : ∀ a b : String, stripWs (a ++ b) = stripWs a ++ stripWs b := by
    intro a b
    apply String.ext
    simp [stripWs, String.data_append]
  simp only [copyAllCode, renderSrcDoc, happ, e1, e2, e3, e4]

/-! ## Loading a snippet, a template or a gist -/

theorem stripWs_append (a b : String) : stripWs (a ++ b) = stripWs a ++ stripWs b := by
  apply String.ext
  simp [stripWs, String.data_append]

/-- The state `loadSnippetById` leaves for a record that exists: the three
fields are those of the record, a missing field being the empty string, and the
document is the template literal of the handler over the fields of the record
as they are. -/
theorem loadSnippetById_found (s : AppState) (hm : s.mounted = true) (data : SnippetData) :
    (step s (.snippetLoaded (.found data))).html = data.html.getD "" ∧
    (step s (.snippetLoaded (.found data))).css = data.css.getD "" ∧
    (step s (.snippetLoaded (.found data))).js = data.js.getD "" ∧
    (step s (.snippetLoaded (.found data))).srcDoc = loadedSrcDoc data := by
  have hf := setCode_fields s (orElse data.html "") (orElse data.css "") (orElse data.js "")
  have hstep : step s (.snippetLoaded (.found data)) = loadSnippetById s (.found data) := by
    simp only [step, hm, if_true]
  rw [hstep]
  refine ⟨?_, ?_, ?_, rfl⟩
  · rw [← orElse_getD]; exact hf.1
  · rw [← orElse_getD]; exact hf.2.1
  · rw [← orElse_getD]; exact hf.2.2.1

/-- For a record with its three fields, the document `loadSnippetById` sets
holds the tags and the values of the document the renderer composes from the
new bundle, with two more blanks of indentation on each line: the two are not
the same string in general, and are the same once blanks and line breaks are
deleted. -/
theorem loaded_document_of_full_record (s : AppState) (hm : s.mounted = true)
    (html css js : String) :
    (step s (.snippetLoaded (.found ⟨some html, some css, some js⟩))).srcDoc =
      "\n          <html>\n            <head><style>" ++ css ++
        "</style></head>\n            <body>" ++ html ++ "<script>" ++ js ++
        "</script></body>\n          </html>\n        " ∧
    stripWs (step s (.snippetLoaded (.found ⟨some html, some css, some js⟩))).srcDoc =
      stripWs (renderSrcDoc html css js) := by
  obtain ⟨_, _, _, hdoc⟩ := loadSnippetById_found s hm ⟨some html, some css, some js⟩
  have e1 : stripWs "\n          <html>\n            <head><style>" =
      stripWs "\n        <html>\n          <head><style>" := by decide
  have e2 : stripWs "</style></head>\n            <body>" =
      stripWs "</style></head>\n          <body>" := by decide
  have e4 : stripWs "</script></body>\n          </html>\n        " =
      stripWs "</script></body>\n        </html>\n      " := by decide
  rw [hdoc]
  constructor
  · rfl
  · simp only [loadedSrcDoc, interpolate, renderSrcDoc, stripWs_append, e1, e2, e4]

/-- C6 (the code at a failing input). For a record that exists and has no
field `css`, `loadSnippetById` sets the style of the bundle to the empty string
and, in the same step, publishes a document whose style block holds the text
`undefined`: the template literal interpolates `data.css` without the
`|| ""` of the setters.  The published document is not the document composed
from the new bundle, and the difference is not one of layout: the two differ
also after blanks and line breaks are deleted. -/
theorem load_publishes_undefined (s : AppState) (hm : s.mounted = true) (html js : String) :
    (step s (.snippetLoaded (.found ⟨some html, none, some js⟩))).bundle = (html, "", js) ∧
    (step s (.snippetLoaded (.found ⟨some html, none, some js⟩))).srcDoc =
      "\n          <html>\n            <head><style>" ++ "undefined" ++
        "</style></head>\n            <body>" ++ html ++ "<script>" ++ js ++
        "</script></body>\n          </html>\n        " ∧
    (step s (.snippetLoaded (.found ⟨some html, none, some js⟩))).srcDoc ≠
      renderSrcDoc html "" js ∧
    stripWs (step s (.snippetLoaded (.found ⟨some html, none, some js⟩))).srcDoc ≠
      stripWs (renderSrcDoc html "" js) := by
  obtain ⟨hh, hc, hj, hdoc⟩ := loadSnippetById_found s hm ⟨some html, none, some js⟩
  have e1 : stripWs "\n          <html>\n            <head><style>" =
      stripWs "\n        <html>\n          <head><style>" := by decide
  have e2 : stripWs "</style></head>\n            <body>" =
      stripWs "</style></head>\n          <body>" := by decide
  have e4 : stripWs "</script></body>\n          </html>\n        " =
      stripWs "</script></body>\n        </html>\n      " := by decide
  have l1 : (stripWs "undefined").length = 9 := by decide
  have l2 : (stripWs "").length = 0 := by decide
  have hstrip : stripWs (loadedSrcDoc ⟨some html, none, some js⟩) ≠
      stripWs (renderSrcDoc html "" js) := by
    intro hc2
    have hl := congrArg String.length hc2
    simp only [loadedSrcDoc, interpolate, renderSrcDoc, stripWs_append, e1, e2, e4,
      String.length_append, l1, l2] at hl
    omega
  refine ⟨?_, ?_, ?_, ?_⟩
  · simp only [AppState.bundle, hh, hc, hj, Option.getD_some, Option.getD_none]
  · rw [hdoc]; rfl
  · rw [hdoc]
    intro hc2
    exact hstrip (congrArg stripWs hc2)
  · rw [hdoc]; exact hstrip

/-- C6 at the record with the markup `<p>x</p>`, an empty script and no style,
loaded into a component whose bundle already holds these values and whose timer
has fired: the document with the style `undefined` is published, no timer is
set, and the document is still there after any further wait. -/
theorem load_publishes_undefined_witness :
    (step (mount "<p>x</p>" "" "" Storage.empty) (.elapse delay)).mounted = true ∧
    (step (step (mount "<p>x</p>" "" "" Storage.empty) (.elapse delay))
      (.snippetLoaded (.found ⟨some "<p>x</p>", none, some ""⟩))).bundle =
      ("<p>x</p>", "", "") ∧
    (step (step (mount "<p>x</p>" "" "" Storage.empty) (.elapse delay))
      (.snippetLoaded (.found ⟨some "<p>x</p>", none, some ""⟩))).srcDoc =
      "\n          <html>\n            <head><style>undefined</style></head>\n            <body><p>x</p><script></script></body>\n          </html>\n        " ∧
    (step (step (mount "<p>x</p>" "" "" Storage.empty) (.elapse delay))
      (.snippetLoaded (.found ⟨some "<p>x</p>", none, some ""⟩))).timers = [] ∧
    (step (step (step (mount "<p>x</p>" "" "" Storage.empty) (.elapse delay))
      (.snippetLoaded (.found ⟨some "<p>x</p>", none, some ""⟩))) (.elapse 1000)).srcDoc =
      "\n          <html>\n            <head><style>undefined</style></head>\n            <body><p>x</p><script></script></body>\n          </html>\n        " := by
  have hm : (step (mount "<p>x</p>" "" "" Storage.empty) (.elapse delay)).mounted = true := rfl
  have h := load_publishes_undefined
    (step (mount "<p>x</p>" "" "" Storage.empty) (.elapse delay)) hm "<p>x</p>" ""
  refine ⟨hm, h.1, ?_, ?_, ?_⟩
  · rw [h.2.1]; decide
  · rfl
  · rfl

theorem fileContent_eq (files : String → Option GistFile) (name : String) :
    fileContent files name = gistContent files name := by
  unfold fileContent gistContent
  rw [orElse_getD]
  cases files name with
  | none => rfl
  | some f =>
    obtain ⟨content⟩ := f
    cases content <;> rfl

/-- C7. Replace, not merge: whatever the bundle was, selecting a template of
the catalog sets the three fields to those of the template; loading a record
that exists sets each field to the value of the record, and to the empty string
when the record lacks it; loading a fetched gist sets each field to the content
of its file (`index.html`, `style.css`, `script.js`), and to the empty string
when the file or its content is missing.  The new fields are strings that
depend on the source alone. -/
theorem replace_not_merge (s : AppState) (hm : s.mounted = true) :
    (∀ p ∈ templates,
      (step s (.selectTemplate p.1)).bundle = (p.2.html, p.2.css, p.2.js)) ∧
    (∀ data : SnippetData,
      (step s (.snippetLoaded (.found data))).bundle =
        (data.html.getD "", data.css.getD "", data.js.getD "")) ∧
    (∀ files : String → Option GistFile,
      (step s (.gistLoaded (.json (some files)))).bundle =
        (gistContent files "index.html", gistContent files "style.css",
          gistContent files "script.js")) := by
  refine ⟨?_, ?_, ?_⟩
  · intro p hp
    have hl : lookupTemplate p.1 templates = some p.2 := by
      simp only [templates, List.mem_cons, List.mem_singleton, List.not_mem_nil,
        or_false] at hp
      rcases hp with h | h | h <;> subst h <;> rfl
    have hf := setCode_fields s p.2.html p.2.css p.2.js
    simp only [step, hm, if_true, selectTemplate, hl, AppState.bundle, hf.1, hf.2.1, hf.2.2.1]
  · intro data
    have hf := setCode_fields s (orElse data.html "") (orElse data.css "") (orElse data.js "")
    simp only [step, hm, if_true, loadSnippetById, AppState.bundle]
    rw [hf.1, hf.2.1, hf.2.2.1]
    simp only [orElse_getD]
  · intro files
    have hf := setCode_fields s (fileContent files "index.html") (fileContent files "style.css")
      (fileContent files "script.js")
    simp only [step, hm, if_true, loadGist, AppState.bundle]
    rw [hf.1, hf.2.1, hf.2.2.1]
    simp only [fileContent_eq]

/-- C7 at a record with the field `html` only: the other fields become
empty, none keeps the old value. -/
theorem replace_not_merge_witness :
    (mount "old" "old" "old" Storage.empty).mounted = true ∧
    (step (mount "old" "old" "old" Storage.empty)
      (.snippetLoaded (.found ⟨some "new", none, none⟩))).bundle = ("new", "", "") :=
  ⟨rfl, (replace_not_merge (mount "old" "old" "old" Storage.empty) rfl).2.1
    ⟨some "new", none, none⟩⟩

/-! ## Theme and reset -/

theorem mount_theme (html css js : String) (ls : Storage) :
    (mount html css js ls).theme = orElse (ls.getItem "theme") "dark" := rfl

theorem blue_theme :
    (mount "" "" "" (Storage.empty.setItem "theme" "blue")).theme = "blue" := by
  simp [mount, runEffect, Storage.getItem, Storage.setItem, orElse]

/-- C9 (counterexample). With the entry `theme` bound to `blue` the initial
theme is `blue`, neither `dark` nor `light`. -/
theorem malformed_theme_is_kept :
    (mount "" "" "" (Storage.empty.setItem "theme" "blue")).theme = "blue" ∧
    (mount "" "" "" (Storage.empty.setItem "theme" "blue")).theme ≠ "dark" ∧
    (mount "" "" "" (Storage.empty.setItem "theme" "blue")).theme ≠ "light" := by
  rw [blue_theme]
  exact ⟨rfl, by decide, by decide⟩

/-- C9 (amended). The initial theme is `dark` when the entry `theme` is absent
or empty, and the stored string otherwise: `dark` or `light` when the entry is
one of these two, and a malformed entry is taken as it is.  The toggle of a
mounted component always yields `dark` or `light` (`light` from `dark`, `dark`
from everything else), so it preserves the invariant, and it writes the new
theme to the entry `theme`. -/
theorem theme_dark_or_light (html css js : String) (ls : Storage) (s : AppState)
    (hm : s.mounted = true) :
    (ls.getItem "theme" = none ∨ ls.getItem "theme" = some "" →
      (mount html css js ls).theme = "dark") ∧
    (∀ t, ls.getItem "theme" = some t → t ≠ "" → (mount html css js ls).theme = t) ∧
    ((step s .toggleTheme).theme = "dark" ∨ (step s .toggleTheme).theme = "light") ∧
    (s.theme = "dark" → (step s .toggleTheme).theme = "light") ∧
    (s.theme ≠ "dark" → (step s .toggleTheme).theme = "dark") ∧
    (step s .toggleTheme).localStorage.getItem "theme" = some (step s .toggleTheme).theme := by
  have hmt := mount_theme html css js ls
  have hstep : step s .toggleTheme = toggleTheme s := by simp [step, hm]
  have hdark : s.theme = "dark" → (toggleTheme s).theme = "light" ∧
      (toggleTheme s).localStorage.getItem "theme" = some "light" := by
    intro h
    have hne : ¬ ("light" = s.theme) := by rw [h]; decide
    simp [toggleTheme, setTheme, h, Storage.getItem, Storage.setItem]
  have hother : s.theme ≠ "dark" → (toggleTheme s).theme = "dark" ∧
      (toggleTheme s).localStorage.getItem "theme" = some "dark" := by
    intro h
    have hne : ¬ ("dark" = s.theme) := fun hc => h hc.symm
    simp [toggleTheme, setTheme, h, hne, Storage.getItem, Storage.setItem]
  rw [hstep]
  refine ⟨?_, ?_, ?_, fun h => (hdark h).1, fun h => (hother h).1, ?_⟩
  · intro h
    rcases h with h | h
    · rw [hmt, h, orElse_none]
    · rw [hmt, h, orElse_empty]
  · intro t ht hne
    rw [hmt, ht, orElse_some t "dark" hne]
  · by_cases h : s.theme = "dark"
    · exact Or.inr (hdark h).1
    · exact Or.inl (hother h).1
  · by_cases h : s.theme = "dark"
    · rw [(hdark h).1, (hdark h).2]
    · rw [(hother h).1, (hother h).2]

/-- The amended C9 at a component whose theme is malformed: the toggle
yields `dark`. -/
theorem theme_dark_or_light_witness :
    (mount "" "" "" (Storage.empty.setItem "theme" "blue")).mounted = true ∧
    (step (mount "" "" "" (Storage.empty.setItem "theme" "blue")) .toggleTheme).theme = "dark" :=
  ⟨rfl, (theme_dark_or_light "" "" "" Storage.empty
    (mount "" "" "" (Storage.empty.setItem "theme" "blue")) rfl).2.2.2.2.1
    (by rw [blue_theme]; decide)⟩

/-- C10. Reset: from every state of a mounted component the handler of the
reset button leaves storage without an entry under `html`, `css` and `js`,
leaves the entry `theme` and every other entry as they were, and sets the three
fields to the hardcoded defaults, the three strings `getInitialCode` returns
for an empty storage. -/
theorem reset_restores_defaults (s : AppState) (hm : s.mounted = true) (lz : LZString) :
    (step s .resetCode).localStorage.getItem "html" = none ∧
    (step s .resetCode).localStorage.getItem "css" = none ∧
    (step s .resetCode).localStorage.getItem "js" = none ∧
    (step s .resetCode).localStorage.getItem "theme" = s.localStorage.getItem "theme" ∧
    (∀ key, key ≠ "html" → key ≠ "css" → key ≠ "js" →
      (step s .resetCode).localStorage.getItem key = s.localStorage.getItem key) ∧
    (step s .resetCode).html = "<h1>Hello</h1>" ∧
    (step s .resetCode).css = "h1 \x7b color: blue; \x7d" ∧
    (step s .resetCode).js = "console.log('Hello');" ∧
    initialFields (getInitialCode lz none Storage.empty) =
      .ok (.string (step s .resetCode).html, .string (step s .resetCode).css,
        .string (step s .resetCode).js) := by
  have hstep : step s .resetCode = resetCode s := by simp [step, hm]
  have hf := setCode_fields
    { s with localStorage :=
        ((s.localStorage.removeItem "html").removeItem "css").removeItem "js" }
    "<h1>Hello</h1>" "h1 \x7b color: blue; \x7d" "console.log('Hello');"
  have hls : (resetCode s).localStorage =
      ((s.localStorage.removeItem "html").removeItem "css").removeItem "js" := hf.2.2.2.1
  have hh : (resetCode s).html = "<h1>Hello</h1>" := hf.1
  have hc : (resetCode s).css = "h1 \x7b color: blue; \x7d" := hf.2.1
  have hj : (resetCode s).js = "console.log('Hello');" := hf.2.2.1
  rw [hstep, hls, hh, hc, hj]
  refine ⟨?_, ?_, ?_, ?_, ?_, rfl, rfl, rfl, ?_⟩
  · simp [Storage.getItem, Storage.removeItem]
  · simp [Storage.getItem, Storage.removeItem]
  · simp [Storage.getItem, Storage.removeItem]
  · simp [Storage.getItem, Storage.removeItem]
  · intro key h1 h2 h3
    simp [Storage.getItem, Storage.removeItem, h1, h2, h3]
  · rfl

/-- C10 at a component with a stored markup. -/
theorem reset_restores_defaults_witness :
    (mount "a" "b" "c" (Storage.empty.setItem "html" "a")).mounted = true ∧
    (step (mount "a" "b" "c" (Storage.empty.setItem "html" "a")) .resetCode).localStorage.getItem
      "html" = none ∧
    (step (mount "a" "b" "c" (Storage.empty.setItem "html" "a")) .resetCode).html =
      "<h1>Hello</h1>" :=
  ⟨rfl,
    (reset_restores_defaults (mount "a" "b" "c" (Storage.empty.setItem "html" "a")) rfl
      markCodec).1,
    (reset_restores_defaults (mount "a" "b" "c" (Storage.empty.setItem "html" "a")) rfl
      markCodec).2.2.2.2.2.1⟩

end OnlineCodeEditor
